import Mathlib

/-!
Verification development for `coep_server.py`: a minimal HTTP static file
server (subclassing Python's `http.server.SimpleHTTPRequestHandler`) whose
only override, `COEPHandler.end_headers`, injects the two cross-origin
isolation headers into every response before the header block is flushed.

Python strings are modelled as `List Char` (`Str`), the filesystem as an
association list from absolute path to node, and the HTTP response as a
record of status, emitted header block and body bytes.  The relevant parts
of the standard library that the script inherits (`posixpath.normpath`,
`SimpleHTTPRequestHandler.translate_path` / `send_head` / `do_GET`,
`BaseHTTPRequestHandler.send_header` / `send_error`, `socketserver`) are
translated from their CPython sources, since the script's behaviour is
mostly inherited from them.
-/

abbrev Str := List Char

/-- Python `str.split(sep, 1)[0]`: everything before the first occurrence of
the separator character (the whole string when absent). -/
def takeUntil (sep : Char) : Str → Str
  | [] => []
  | c :: rest => if c = sep then [] else c :: takeUntil sep rest

/-- Everything after the first occurrence of the separator character
(empty when absent): the complement of `takeUntil`. -/
def dropPast (sep : Char) : Str → Str
  | [] => []
  | c :: rest => if c = sep then rest else dropPast sep rest

/-- `s.startswith('/')` for a single character. -/
def startsWithSlash : Str → Bool
  | [] => false
  | c :: _ => c = '/'

/-- `s.endswith('/')`. -/
def endsWithSlash (s : Str) : Bool :=
  match s.getLast? with
  | some c => c = '/'
  | none => false

/-- ASCII whitespace recognised by Python `str.rstrip()` (the Unicode cases
are irrelevant to the paths modelled here). -/
def isPySpace (c : Char) : Bool :=
  c = ' ' ∨ c = '\t' ∨ c = '\n' ∨ c = '\x0b' ∨ c = '\x0c' ∨ c = '\r'

/-- Python `str.rstrip()`. -/
def rstrip (s : Str) : Str :=
  (s.reverse.dropWhile isPySpace).reverse

/-- Hexadecimal digit value, `none` for a non-hex character. -/
def hexVal (c : Char) : Option Nat :=
  if '0' ≤ c ∧ c ≤ '9' then some (c.toNat - '0'.toNat)
  else if 'a' ≤ c ∧ c ≤ 'f' then some (c.toNat - 'a'.toNat + 10)
  else if 'A' ≤ c ∧ c ≤ 'F' then some (c.toNat - 'A'.toNat + 10)
  else none

/-- `urllib.parse.unquote`, restricted to the single-byte (ASCII) escapes
that matter for filesystem paths: `%XY` with two hex digits decodes to the
character of that code point, anything else is copied verbatim. -/
def unquote : Str → Str
  | [] => []
  | '%' :: a :: b :: rest =>
    match hexVal a, hexVal b with
    | some ha, some hb => Char.ofNat (16 * ha + hb) :: unquote rest
    | _, _ => '%' :: unquote (a :: b :: rest)
  | c :: rest => c :: unquote rest

/-- `posixpath.join(a, b)` for a single extra component. -/
def osJoin (a b : Str) : Str :=
  if startsWithSlash b then b
  else if a = [] ∨ endsWithSlash a then a ++ b
  else a ++ '/' :: b

/-- The component accumulator loop of `posixpath.normpath`: skips `''` and
`'.'`, appends ordinary components, and resolves `'..'` by popping unless at
an unanchored start or on top of another `'..'`. -/
def normComps (slashes : Nat) : List Str → List Str → List Str
  | acc, [] => acc
  | acc, comp :: rest =>
    if comp = [] ∨ comp = ['.'] then normComps slashes acc rest
    else if comp ≠ ['.', '.'] ∨ (slashes = 0 ∧ acc = []) ∨ acc.getLast? = some ['.', '.'] then
      normComps slashes (acc ++ [comp]) rest
    else if acc ≠ [] then normComps slashes acc.dropLast rest
    else normComps slashes acc rest

/-- Number of initial slashes kept by `posixpath.normpath` (POSIX treats
exactly two leading slashes specially). -/
def initialSlashes (p : Str) : Nat :=
  match p with
  | '/' :: '/' :: '/' :: _ => 1
  | '/' :: '/' :: _ => 2
  | '/' :: _ => 1
  | _ => 0

/-- `posixpath.normpath`. -/
def normpath (p : Str) : Str :=
  if p = [] then ['.']
  else
    let slashes := initialSlashes p
    let comps := normComps slashes [] (p.splitOn '/')
    let res := List.replicate slashes '/' ++ List.intercalate ['/'] comps
    if res = [] then ['.'] else res

/-- The body of the `for word in words` loop of
`SimpleHTTPRequestHandler.translate_path`: components carrying a directory
part (impossible after a split on `'/'`), `os.curdir` and `os.pardir` are
ignored, the rest are joined onto the path. -/
def translateStep (acc w : Str) : Str :=
  if w.contains '/' ∨ w = ['.'] ∨ w = ['.', '.'] then acc else osJoin acc w

/-- `SimpleHTTPRequestHandler.translate_path(self, path)` with
`self.directory = directory`: drops query and fragment, remembers an
explicit trailing slash, percent-decodes, normalises, then rebuilds the
path from the simple components only, anchored at the served directory. -/
def translate_path (directory path : Str) : Str :=
  let path1 := takeUntil '#' (takeUntil '?' path)
  let trailing := endsWithSlash (rstrip path1)
  let path2 := normpath (unquote path1)
  let words := (path2.splitOn '/').filter (fun w => w ≠ [])
  let res := words.foldl translateStep directory
  if trailing then res ++ ['/'] else res

/-- `q` lies at or below the directory `d`. -/
def withinRoot (d q : Str) : Prop :=
  q = d ∨ ∃ s, q = d ++ '/' :: s

example : translate_path "/root".data "/../../etc/passwd".data = "/root/etc/passwd".data := by decide
example : translate_path "/root".data "/sample.parquet".data = "/root/sample.parquet".data := by decide
example : translate_path "/root".data "/sub/".data = "/root/sub/".data := by decide

/-! ## Filesystem model

The filesystem is an association list from absolute path (no trailing
slash in the stored keys) to node: a regular file with its byte content
and a Last-Modified string, or a directory with its entry names. -/

inductive FsNode where
  | file (content : List UInt8) (mtime : Str)
  | dir (entries : List Str)
deriving DecidableEq

abbrev FS := List (Str × FsNode)

def fsLookup (fs : FS) (p : Str) : Option FsNode :=
  match fs with
  | [] => none
  | (k, v) :: rest => if k = p then some v else fsLookup rest p

/-- Strip trailing slashes before a directory lookup (`os.path.isdir`
accepts `"a/b/"` for a directory `"a/b"`). -/
def stripTrailingSlashes (p : Str) : Str :=
  (p.reverse.dropWhile (fun c => c = '/')).reverse

/-- `os.path.isdir`. -/
def isdir (fs : FS) (p : Str) : Bool :=
  match fsLookup fs (stripTrailingSlashes p) with
  | some (.dir _) => true
  | _ => false

/-- `os.path.isfile`. -/
def isfile (fs : FS) (p : Str) : Bool :=
  match fsLookup fs p with
  | some (.file _ _) => true
  | _ => false

/-! ## MIME type guessing

`SimpleHTTPRequestHandler.guess_type`: split off the extension
(`posixpath.splitext`), look it up case-sensitively then lowercased in the
extensions map, and fall back to `application/octet-stream`.  The map below
is the relevant fragment of the `mimetypes` table. -/

/-- The basename: everything after the last `'/'`. -/
def basenameOf (p : Str) : Str :=
  (takeUntil '/' p.reverse).reverse

/-- `posixpath.splitext` restricted to the extension part: the suffix from
the last `'.'` of the basename, unless all characters before it are dots
(so `".bashrc"` has no extension). -/
def extOf (p : Str) : Str :=
  let base := basenameOf p
  let revBase := base.reverse
  let revExt := takeUntil '.' revBase
  if revExt.length = revBase.length then []
  else
    let pre := base.take (base.length - revExt.length - 1)
    if pre.any (fun c => c ≠ '.') then '.' :: revExt.reverse else []

def extensionsMap : List (Str × Str) :=
  [ (".html".data, "text/html".data)
  , (".htm".data, "text/html".data)
  , (".txt".data, "text/plain".data)
  , (".js".data, "text/javascript".data)
  , (".css".data, "text/css".data)
  , (".json".data, "application/json".data)
  , (".wasm".data, "application/wasm".data)
  , (".png".data, "image/png".data)
  , (".parquet".data, "application/octet-stream".data) ]

def lowerStr (s : Str) : Str := s.map Char.toLower

def lookupAssoc (m : List (Str × Str)) (k : Str) : Option Str :=
  match m with
  | [] => none
  | (a, b) :: rest => if a = k then some b else lookupAssoc rest k

/-- `SimpleHTTPRequestHandler.guess_type`. -/
def guess_type (p : Str) : Str :=
  let ext := extOf p
  match lookupAssoc extensionsMap ext with
  | some t => t
  | none =>
    match lookupAssoc extensionsMap (lowerStr ext) with
    | some t => t
    | none => "application/octet-stream".data

/-! ## Header machinery and the COEP override

`BaseHTTPRequestHandler.send_header` appends a header line to the internal
buffer; `end_headers` flushes the buffer followed by the blank line.  The
single override of the repository, `COEPHandler.end_headers`, first sends
the two isolation headers and then delegates to the superclass:

    def end_headers(self):
        self.send_header('Cross-Origin-Opener-Policy', 'same-origin')
        self.send_header('Cross-Origin-Embedder-Policy', 'require-corp')
        super().end_headers()

so the emitted header block is always the buffered headers followed by the
two isolation headers. -/

abbrev HeaderBuf := List (Str × Str)

/-- `BaseHTTPRequestHandler.send_header` (the buffering it performs). -/
def send_header (buf : HeaderBuf) (k v : Str) : HeaderBuf :=
  buf ++ [(k, v)]

def coopName : Str := "Cross-Origin-Opener-Policy".data
def coopValue : Str := "same-origin".data
def coepName : Str := "Cross-Origin-Embedder-Policy".data
def coepValue : Str := "require-corp".data

/-- `COEPHandler.end_headers`: the header block actually emitted, given the
headers buffered so far. -/
def end_headers (buf : HeaderBuf) : HeaderBuf :=
  send_header (send_header buf coopName coopValue) coepName coepValue

/-- The values carried by all headers of a given name in a header block. -/
def headerValues (hs : HeaderBuf) (k : Str) : List Str :=
  (hs.filter (fun h => h.1 = k)).map (fun h => h.2)

/-! ## Response construction -/

structure Response where
  status : Nat
  headers : HeaderBuf
  body : List UInt8
deriving DecidableEq

def natToStr (n : Nat) : Str := (Nat.repr n).data

def strBytes (s : Str) : List UInt8 := (String.mk s).toUTF8.toList

/-- `html.escape(s, quote=False)`. -/
def htmlEscape : Str → Str
  | [] => []
  | c :: rest =>
    (if c = '&' then "&amp;".data
     else if c = '<' then "&lt;".data
     else if c = '>' then "&gt;".data
     else [c]) ++ htmlEscape rest

/-- `http.server.BaseHTTPRequestHandler.responses[code]` for the codes the
handler can produce: (short phrase, long explanation). -/
def responsePhrases (code : Nat) : Str × Str :=
  if code = 200 then ("OK".data, "Request fulfilled, document follows".data)
  else if code = 301 then ("Moved Permanently".data, "Object moved permanently".data)
  else if code = 404 then ("Not Found".data, "Nothing matches the given URI".data)
  else if code = 403 then ("Forbidden".data, "Request forbidden -- authorization will not help".data)
  else ("".data, "".data)

/-- `BaseHTTPRequestHandler.error_message_format` (DEFAULT_ERROR_MESSAGE)
instantiated with code, escaped message and escaped explanation. -/
def errorBodyStr (code : Nat) (message explain : Str) : Str :=
  "<!DOCTYPE HTML>\n<html lang=\"en\">\n    <head>\n        <meta charset=\"utf-8\">\n        <title>Error response</title>\n    </head>\n    <body>\n        <h1>Error response</h1>\n        <p>Error code: ".data
  ++ natToStr code
  ++ "</p>\n        <p>Message: ".data
  ++ htmlEscape message
  ++ ".</p>\n        <p>Error code explanation: ".data
  ++ natToStr code
  ++ " - ".data
  ++ htmlEscape explain
  ++ ".</p>\n    </body>\n</html>\n".data

/-- `BaseHTTPRequestHandler.send_response(code)` buffers the `Server` and
`Date` headers (the status line itself is not part of the header buffer).
`sv` and `dt` stand for `version_string()` and `date_time_string()`. -/
def send_response_buf (sv dt : Str) : HeaderBuf :=
  send_header (send_header [] "Server".data sv) "Date".data dt

/-- `BaseHTTPRequestHandler.send_error(code, message)`: sends the response
line, `Connection: close`, and for codes with a body the error page with
its `Content-Type` and `Content-Length`; the block is closed by the
overridden `end_headers`. -/
def send_error (code : Nat) (message : Str) (sv dt : Str) : Response :=
  let explain := (responsePhrases code).2
  let buf := send_response_buf sv dt
  let buf := send_header buf "Connection".data "close".data
  let body := strBytes (errorBodyStr code message explain)
  let buf := send_header buf "Content-Type".data "text/html;charset=utf-8".data
  let buf := send_header buf "Content-Length".data (natToStr body.length)
  { status := code, headers := end_headers buf, body := body }

/-! ## Directory listing and redirect

`send_head` redirects a directory request lacking a trailing slash (301,
with the slash appended to the path component of the URL), tries
`index.html` / `index.htm`, and otherwise produces `list_directory`. -/

/-- The path component of `urllib.parse.urlsplit` for an origin-form
request target (queries after `'?'`, fragments after `'#'`). -/
def urlsplitPath (p : Str) : Str := takeUntil '?' (takeUntil '#' p)

/-- The query component of `urllib.parse.urlsplit`. -/
def urlsplitQuery (p : Str) : Str := dropPast '?' (takeUntil '#' p)

/-- `urllib.parse.urlunsplit` of the original parts with `'/'` appended to
the path: the `Location` value of the directory redirect. -/
def redirectLocation (reqPath : Str) : Str :=
  let q := urlsplitQuery reqPath
  urlsplitPath reqPath ++ ['/'] ++ (if q = [] then [] else '?' :: q)

/-- Characters `urllib.parse.quote` leaves unescaped (safe set `'/'`). -/
def isUrlSafe (c : Char) : Bool :=
  c.isAlphanum ∨ c = '_' ∨ c = '.' ∨ c = '-' ∨ c = '~' ∨ c = '/'

def hexDigitChar (n : Nat) : Char :=
  if n < 10 then Char.ofNat ('0'.toNat + n) else Char.ofNat ('A'.toNat + n - 10)

/-- `urllib.parse.quote`, at the ASCII level. -/
def urlQuote : Str → Str
  | [] => []
  | c :: rest =>
    (if isUrlSafe c then [c]
     else ['%', hexDigitChar (c.toNat / 16 % 16), hexDigitChar (c.toNat % 16)]) ++ urlQuote rest

/-- Stable insertion sort by `key(a) <= key(b)` with Python's lexicographic
string comparison: `list.sort(key=lambda a: a.lower())`. -/
def strLe : Str → Str → Bool
  | [], _ => true
  | _ :: _, [] => false
  | a :: as_, b :: bs => if a = b then strLe as_ bs else decide (a < b)

def insertByLower (x : Str) : List Str → List Str
  | [] => [x]
  | y :: ys => if strLe (lowerStr x) (lowerStr y) then x :: y :: ys else y :: insertByLower x ys

def sortByLower : List Str → List Str
  | [] => []
  | x :: xs => insertByLower x (sortByLower xs)

/-- One `<li>` line of `SimpleHTTPRequestHandler.list_directory`: a
directory entry gets a trailing slash on both the link and the display
name (symbolic links do not exist in the filesystem model). -/
def listingEntryLine (fs : FS) (dirPath name : Str) : Str :=
  let fullname := osJoin dirPath name
  let slash : Str := if isdir fs fullname then ['/'] else []
  "<li><a href=\"".data ++ urlQuote (name ++ slash) ++ "\">".data
    ++ htmlEscape (name ++ slash) ++ "</a></li>".data

/-- The HTML document produced by `SimpleHTTPRequestHandler.list_directory`
(joined with newlines, encoded with the `utf-8` filesystem encoding). -/
def listingBody (fs : FS) (reqPath dirPath : Str) (entries : List Str) : Str :=
  let displaypath := htmlEscape (unquote reqPath)
  let title := "Directory listing for ".data ++ displaypath
  let lines : List Str :=
    [ "<!DOCTYPE HTML>".data
    , "<html lang=\"en\">".data
    , "<head>".data
    , "<meta charset=\"utf-8\">".data
    , "<title>".data ++ title ++ "</title>".data
    , "</head>".data
    , "<body>".data
    , "<h1>".data ++ title ++ "</h1>".data
    , "<hr>".data
    , "<ul>".data ]
    ++ (sortByLower entries).map (listingEntryLine fs dirPath)
    ++ [ "</ul>".data, "<hr>".data, "</body>".data, "</html>".data ]
  List.intercalate ['\n'] lines

/-! ## `send_head` and `do_GET` -/

/-- The outcome of `SimpleHTTPRequestHandler.send_head`, before headers are
written: a directory redirect, a directory listing, a 404, or an open file
to serve. -/
inductive HeadResult where
  | redirect (location : Str)
  | listing (dirPath : Str) (entries : List Str)
  | notFound (message : Str)
  | okFile (path : Str) (content : List UInt8) (ctype mtime : Str)
deriving DecidableEq

/-- The common tail of `send_head` once the final candidate path is fixed:
compute the content type, reject a trailing slash with 404, and try to
open the file (failure yields 404 `File not found`). -/
def openAndServe (fs : FS) (path : Str) : HeadResult :=
  let ctype := guess_type path
  if endsWithSlash path then .notFound "File not found".data
  else
    match fsLookup fs path with
    | some (.file c m) => .okFile path c ctype m
    | _ => .notFound "File not found".data

/-- `SimpleHTTPRequestHandler.send_head` over the filesystem model. -/
def send_head (fs : FS) (directory reqPath : Str) : HeadResult :=
  let path := translate_path directory reqPath
  if isdir fs path then
    if ¬ endsWithSlash (urlsplitPath reqPath) then
      .redirect (redirectLocation reqPath)
    else
      let idx1 := osJoin path "index.html".data
      if isfile fs idx1 then openAndServe fs idx1
      else
        let idx2 := osJoin path "index.htm".data
        if isfile fs idx2 then openAndServe fs idx2
        else
          match fsLookup fs (stripTrailingSlashes path) with
          | some (.dir entries) => .listing path entries
          | _ => .notFound "No permission to list directory".data
  else openAndServe fs path

/-- `do_GET` (via `send_head`), producing the full response.  Every branch
closes its header block through the overridden `end_headers`. -/
def do_GET (fs : FS) (directory reqPath sv dt : Str) : Response :=
  match send_head fs directory reqPath with
  | .okFile _ c ctype m =>
    let buf := send_response_buf sv dt
    let buf := send_header buf "Content-type".data ctype
    let buf := send_header buf "Content-Length".data (natToStr c.length)
    let buf := send_header buf "Last-Modified".data m
    { status := 200, headers := end_headers buf, body := c }
  | .redirect loc =>
    let buf := send_response_buf sv dt
    let buf := send_header buf "Location".data loc
    let buf := send_header buf "Content-Length".data "0".data
    { status := 301, headers := end_headers buf, body := [] }
  | .listing dirPath entries =>
    let body := strBytes (listingBody fs reqPath dirPath entries)
    let buf := send_response_buf sv dt
    let buf := send_header buf "Content-type".data "text/html; charset=utf-8".data
    let buf := send_header buf "Content-Length".data (natToStr body.length)
    { status := 200, headers := end_headers buf, body := body }
  | .notFound msg => send_error 404 msg sv dt

/-- The request loop of `BaseServer.serve_forever`: each accepted request
is answered by the handler; `send_error` raises no exception, so a 404
never terminates the loop and every request receives a response. -/
def serveRequests (fs : FS) (directory sv dt : Str) (reqs : List Str) : List Response :=
  reqs.map (fun p => do_GET fs directory p sv dt)

/-! ## Process lifecycle

The `__main__` block:

    parser = argparse.ArgumentParser()
    parser.add_argument('--port', '-p', type=int, default=8080)
    parser.add_argument('--bind', '-b', default='127.0.0.1')
    args = parser.parse_args()
    with socketserver.TCPServer((args.bind, args.port), COEPHandler) as httpd:
        print(...)
        httpd.serve_forever()

`argparse` applies `int` to the `--port` value and exits with status 2
(`SystemExit(2)`) when the conversion fails; it performs no range check.
`TCPServer(...)` binds immediately; the C socket layer raises
`OverflowError` for a port outside 0..65535 and `OSError` for an address
already in use, and neither exception is caught, so the interpreter exits
with status 1.  `KeyboardInterrupt` during `serve_forever` is likewise
uncaught. -/

/-- Digit-run parsing of Python `int(str)`: digits with single underscores
allowed between digits. -/
def pyDigitsGo (acc : Nat) : Str → Option Nat
  | [] => some acc
  | '_' :: c :: rest =>
    if c.isDigit then pyDigitsGo (acc * 10 + (c.toNat - 48)) rest else none
  | c :: rest =>
    if c.isDigit then pyDigitsGo (acc * 10 + (c.toNat - 48)) rest else none

def pyDigits : Str → Option Nat
  | [] => none
  | c :: rest => if c.isDigit then pyDigitsGo (c.toNat - 48) rest else none

/-- Python `str.strip()` (ASCII whitespace). -/
def pyStrip (s : Str) : Str :=
  ((s.dropWhile isPySpace).reverse.dropWhile isPySpace).reverse

/-- Python `int(s)`: optional surrounding whitespace, optional sign, then
digits.  `none` models a `ValueError`. -/
def pyInt (s : Str) : Option Int :=
  match pyStrip s with
  | '+' :: rest => (pyDigits rest).map (fun n => (n : Int))
  | '-' :: rest => (pyDigits rest).map (fun n => -(n : Int))
  | t => (pyDigits t).map (fun n => (n : Int))

structure ParsedArgs where
  port : Int
  bind : Str
deriving DecidableEq

/-- The `argparse` configuration of the script: options `--port`/`-p`
(converted by `int`, default 8080) and `--bind`/`-b` (default
`'127.0.0.1'`); any other argument, a missing option value, or a failed
`int` conversion is a usage error (`none`, exit status 2).  There is no
option naming a served directory. -/
def parseArgv : List Str → ParsedArgs → Option ParsedArgs
  | [], acc => some acc
  | a :: rest, acc =>
    if a = "--port".data ∨ a = "-p".data then
      match rest with
      | [] => none
      | v :: rest2 =>
        match pyInt v with
        | some n => parseArgv rest2 { acc with port := n }
        | none => none
    else if a = "--bind".data ∨ a = "-b".data then
      match rest with
      | [] => none
      | v :: rest2 => parseArgv rest2 { acc with bind := v }
    else none

def defaultArgs : ParsedArgs := { port := 8080, bind := "127.0.0.1".data }

/-- The range accepted by the C socket layer (`getsockaddrarg`): anything
else raises `OverflowError` at bind time.  Note that 0 is accepted — it
binds an ephemeral port. -/
def validBindPort (p : Int) : Bool := 0 ≤ p ∧ p ≤ 65535

inductive StartOutcome where
  /-- `argparse` rejected the command line: `SystemExit(2)` before any
  socket exists. -/
  | usageError
  /-- `TCPServer(...)` raised (`OverflowError` out of range, `OSError`
  address in use): uncaught, interpreter exit status 1. -/
  | bindError
  /-- The server reached `serve_forever`. -/
  | serving (bind : Str) (port : Int)
deriving DecidableEq

/-- The startup path of the `__main__` block, from command line to either
a failed exit or the listening state. -/
def runMain (argv : List Str) (portInUse : Int → Bool) : StartOutcome :=
  match parseArgv argv defaultArgs with
  | none => .usageError
  | some a =>
    if ¬ validBindPort a.port then .bindError
    else if portInUse a.port then .bindError
    else .serving a.bind a.port

inductive ProcessEnd where
  | afterUsageError
  | afterBindError
  /-- Operator interrupt during `serve_forever`: the script installs no
  `KeyboardInterrupt` handler, so the exception propagates out of the
  `with` block and the interpreter terminates abnormally. -/
  | afterInterrupt
deriving DecidableEq

/-- CPython exit status for each way this process can end: `SystemExit(2)`
from `argparse`; status 1 for an uncaught exception (`OSError` /
`OverflowError` at bind, `KeyboardInterrupt` during `serve_forever` —
interpreters that re-raise the signal exit with 128+SIGINT instead, which
is likewise non-zero; 1 is the modelled value). -/
def exitCode : ProcessEnd → Nat
  | .afterUsageError => 2
  | .afterBindError => 1
  | .afterInterrupt => 1

structure SocketState where
  bound : Bool
  closed : Bool
deriving DecidableEq

/-- `socketserver.TCPServer.__init__` with `bind_and_activate=True`: the
socket is created, then `server_bind`/`server_activate` run inside
`try: ... except: self.server_close(); raise` — on a bind failure the
socket is closed before the exception propagates. -/
def tcpServerInit (bindFails : Bool) : Except SocketState SocketState :=
  let s : SocketState := { bound := false, closed := false }
  if bindFails then .error { s with closed := true }
  else .ok { s with bound := true }

/-- `SimpleHTTPRequestHandler.__init__(self, ..., directory=None)`: the
served directory defaults to `os.getcwd()`. -/
def handlerDirectory (directoryArg : Option Str) (cwd : Str) : Str :=
  match directoryArg with
  | some d => d
  | none => cwd

/-- `COEPHandler` neither overrides `__init__` nor is constructed with a
`directory` argument (`TCPServer` instantiates it as
`COEPHandler(request, client_address, self)`), so the served root is the
process working directory. -/
def coepHandlerDirectory (cwd : Str) : Str := handlerDirectory none cwd

/-! ## Scheduling model

`BaseServer.serve_forever` loops over `_handle_request_noblock`, which
calls `process_request` synchronously; `TCPServer` (unlike
`ThreadingMixIn`) does not override `process_request`, so
`finish_request` — the handler run — completes before the loop returns to
`accept`.  The trace of one connection is therefore a contiguous block. -/

inductive Ev where
  | accepted (i : Nat)
  | handleStart (i : Nat)
  | handleEnd (i : Nat)
deriving DecidableEq

/-- `accept` + synchronous `process_request` for connection `i`. -/
def connectionTrace (i : Nat) : List Ev :=
  [.accepted i, .handleStart i, .handleEnd i]

/-- The event trace of `serve_forever` after `n` connections. -/
def serveForeverTrace : Nat → List Ev
  | 0 => []
  | n + 1 => serveForeverTrace n ++ connectionTrace n

/-- Do the three events at three increasing positions witness one handler
starting while another is still running? -/
def overlapB : Ev → Ev → Ev → Bool
  | .handleStart i, .handleStart j, .handleEnd k => decide (i ≠ j ∧ k = i)
  | _, _, _ => false

/-- Some handler executes in parallel with another: a second handler
starts strictly between the start and the end of a first. -/
def concurrentHandling (t : List Ev) : Prop :=
  ∃ a b c : Fin t.length,
    a.val < b.val ∧ b.val < c.val ∧ overlapB (t.get a) (t.get b) (t.get c) = true

/-! ## Supporting lemmas: the header block -/

lemma headerValues_append (h1 h2 : HeaderBuf) (k : Str) :
    headerValues (h1 ++ h2) k = headerValues h1 k ++ headerValues h2 k := by
  simp [headerValues, List.filter_append]

lemma end_headers_eq (buf : HeaderBuf) :
    end_headers buf = buf ++ [(coopName, coopValue), (coepName, coepValue)] := by
  simp [end_headers, send_header]

lemma headerValues_eq_nil (buf : HeaderBuf) (k : Str) (h : ∀ x ∈ buf, x.1 ≠ k) :
    headerValues buf k = [] := by
  simp only [headerValues, List.map_eq_nil_iff, List.filter_eq_nil_iff]
  intro a ha
  simpa using h a ha

lemma keys_avoid (buf : HeaderBuf) (ks : List Str) (hmap : buf.map Prod.fst = ks)
    (k : Str) (hk : k ∉ ks) : ∀ x ∈ buf, x.1 ≠ k := by
  intro x hx heq
  exact hk (hmap ▸ heq ▸ List.mem_map_of_mem Prod.fst hx)

lemma headerValues_end_coop (buf : HeaderBuf) (h : headerValues buf coopName = []) :
    headerValues (end_headers buf) coopName = [coopValue] := by
  rw [end_headers_eq, headerValues_append, h]
  decide

lemma headerValues_end_coep (buf : HeaderBuf) (h : headerValues buf coepName = []) :
    headerValues (end_headers buf) coepName = [coepValue] := by
  rw [end_headers_eq, headerValues_append, h]
  decide

lemma both_iso (buf : HeaderBuf) (ks : List Str) (hmap : buf.map Prod.fst = ks)
    (h1 : coopName ∉ ks) (h2 : coepName ∉ ks) :
    headerValues (end_headers buf) coopName = [coopValue] ∧
      headerValues (end_headers buf) coepName = [coepValue] :=
  ⟨headerValues_end_coop buf (headerValues_eq_nil buf _ (keys_avoid buf ks hmap _ h1)),
   headerValues_end_coep buf (headerValues_eq_nil buf _ (keys_avoid buf ks hmap _ h2))⟩

/-! ## Supporting lemmas: path resolution stays inside the served root -/

lemma not_startsWithSlash (w : Str) (h : w.contains '/' = false) :
    startsWithSlash w = false := by
  cases w with
  | nil => rfl
  | cons c rest =>
    simp only [List.contains_cons, Bool.or_eq_false_iff] at h
    simp only [startsWithSlash, decide_eq_false_iff_not]
    intro hc
    subst hc
    simp at h

lemma osJoin_within (d q w : Str) (hd : d ≠ []) (hds : endsWithSlash d = false)
    (hq : withinRoot d q) (hw : startsWithSlash w = false) :
    withinRoot d (osJoin q w) := by
  rcases hq with hq | ⟨s, hq⟩
  · subst hq
    have hne : ¬(q = [] ∨ endsWithSlash q = true) := by
      rintro (h | h)
      · exact hd h
      · rw [hds] at h; cases h
    simp only [osJoin, hw, Bool.false_eq_true, if_false]
    rw [if_neg (by simpa using hne)]
    exact Or.inr ⟨w, rfl⟩
  · subst hq
    simp only [osJoin, hw, Bool.false_eq_true, if_false]
    by_cases he : d ++ '/' :: s = [] ∨ endsWithSlash (d ++ '/' :: s) = true
    · rw [if_pos (by simpa using he)]
      exact Or.inr ⟨s ++ w, by simp⟩
    · rw [if_neg (by simpa using he)]
      exact Or.inr ⟨s ++ '/' :: w, by simp⟩

lemma translateStep_within (d : Str) (hd : d ≠ []) (hds : endsWithSlash d = false)
    (acc w : Str) (hacc : withinRoot d acc) :
    withinRoot d (translateStep acc w) := by
  unfold translateStep
  by_cases hcond : w.contains '/' = true ∨ w = ['.'] ∨ w = ['.', '.']
  · rw [if_pos (by simpa using hcond)]
    exact hacc
  · rw [if_neg (by simpa using hcond)]
    push_neg at hcond
    exact osJoin_within d acc w hd hds hacc
      (not_startsWithSlash w (by simpa using hcond.1))

lemma foldl_translateStep_within (d : Str) (hd : d ≠ []) (hds : endsWithSlash d = false) :
    ∀ (ws : List Str) (acc : Str), withinRoot d acc →
      withinRoot d (ws.foldl translateStep acc)
  | [], acc, hacc => hacc
  | w :: ws, acc, hacc =>
    foldl_translateStep_within d hd hds ws (translateStep acc w)
      (translateStep_within d hd hds acc w hacc)

lemma withinRoot_append_slash (d q : Str) (hq : withinRoot d q) :
    withinRoot d (q ++ ['/']) := by
  rcases hq with hq | ⟨s, hq⟩
  · subst hq; exact Or.inr ⟨[], rfl⟩
  · subst hq; exact Or.inr ⟨s ++ ['/'], by simp⟩

lemma translate_path_within (d p : Str) (hd : d ≠ []) (hds : endsWithSlash d = false) :
    withinRoot d (translate_path d p) := by
  unfold translate_path
  set words := ((normpath (unquote (takeUntil '#' (takeUntil '?' p)))).splitOn '/').filter
    (fun w => w ≠ []) with hw
  have hfold : withinRoot d (words.foldl translateStep d) :=
    foldl_translateStep_within d hd hds words d (Or.inl rfl)
  by_cases htr : endsWithSlash (rstrip (takeUntil '#' (takeUntil '?' p))) = true
  · rw [if_pos htr]
    exact withinRoot_append_slash d _ hfold
  · rw [if_neg htr]
    exact hfold

/-! ## Supporting lemmas: send_head case analysis -/

lemma stripTrailingSlashes_eq_self (q : Str) (h : endsWithSlash q = false) :
    stripTrailingSlashes q = q := by
  unfold stripTrailingSlashes
  cases hq : q.reverse with
  | nil =>
    have : q = [] := by simpa using congrArg List.reverse hq
    subst this; rfl
  | cons c rest =>
    have hlast : q.getLast? = some c := by
      rw [List.getLast?_eq_head?_reverse, hq]; rfl
    have hc : (c = '/') = False := by
      simp only [endsWithSlash, hlast] at h
      simpa using h
    rw [List.dropWhile_cons, if_neg (by simp [hc])]
    calc (c :: rest).reverse = q.reverse.reverse := by rw [hq]
    _ = q := by simp

lemma isdir_false_of_file (fs : FS) (q : Str) (c : List UInt8) (m : Str)
    (hq : endsWithSlash q = false) (hf : fsLookup fs q = some (.file c m)) :
    isdir fs q = false := by
  simp [isdir, stripTrailingSlashes_eq_self q hq, hf]

lemma openAndServe_file (fs : FS) (q : Str) (c : List UInt8) (m : Str)
    (hq : endsWithSlash q = false) (hf : fsLookup fs q = some (.file c m)) :
    openAndServe fs q = .okFile q c (guess_type q) m := by
  simp [openAndServe, hq, hf]

lemma openAndServe_okFile (fs : FS) (path q : Str) (c : List UInt8) (ct m : Str)
    (h : openAndServe fs path = .okFile q c ct m) :
    q = path ∧ fsLookup fs path = some (.file c m) := by
  unfold openAndServe at h
  by_cases he : endsWithSlash path = true
  · rw [if_pos he] at h; cases h
  · rw [if_neg he] at h
    cases hl : fsLookup fs path with
    | none => rw [hl] at h; cases h
    | some node =>
      cases node with
      | file c0 m0 =>
        rw [hl] at h
        injection h with h1 h2 h3 h4
        exact ⟨h1.symm, by rw [h2, h4]⟩
      | dir es => rw [hl] at h; cases h

lemma pre_no_iso (buf : HeaderBuf) (ks : List Str) (hmap : buf.map Prod.fst = ks)
    (h1 : coopName ∉ ks) (h2 : coepName ∉ ks) :
    ∀ x ∈ buf, x.1 ≠ coopName ∧ x.1 ≠ coepName :=
  fun x hx => ⟨keys_avoid buf ks hmap _ h1 x hx, keys_avoid buf ks hmap _ h2 x hx⟩

/-! ## The claims -/

/-- C1: every HTTP response the server produces — file serve, redirect,
directory listing, or error — carries `Cross-Origin-Opener-Policy:
same-origin` and `Cross-Origin-Embedder-Policy: require-corp`, each as the
unique header of that name with exactly that literal value, independent of
the request, the filesystem and the status code. -/
theorem c1_isolation_headers_on_every_response (fs : FS) (dir p sv dt : Str) :
    headerValues (do_GET fs dir p sv dt).headers coopName = [coopValue] ∧
    headerValues (do_GET fs dir p sv dt).headers coepName = [coepValue] := by
  rcases hs : send_head fs dir p with loc | ⟨dp, es⟩ | msg | ⟨pa, c, ct, m⟩
  · simp only [do_GET, hs]
    exact both_iso _
      ["Server".data, "Date".data, "Location".data, "Content-Length".data]
      rfl (by decide) (by decide)
  · simp only [do_GET, hs]
    exact both_iso _
      ["Server".data, "Date".data, "Content-type".data, "Content-Length".data]
      rfl (by decide) (by decide)
  · simp only [do_GET, hs, send_error]
    exact both_iso _
      ["Server".data, "Date".data, "Connection".data, "Content-Type".data,
       "Content-Length".data]
      rfl (by decide) (by decide)
  · simp only [do_GET, hs]
    exact both_iso _
      ["Server".data, "Date".data, "Content-type".data, "Content-Length".data,
       "Last-Modified".data]
      rfl (by decide) (by decide)

/-- C10: in every response the two isolation headers are appended exactly
once each, after every header set by the underlying handler and
immediately before the end of the header block, in the order
Cross-Origin-Opener-Policy then Cross-Origin-Embedder-Policy. -/
theorem c10_isolation_headers_appended_last_in_order (fs : FS) (dir p sv dt : Str) :
    ∃ pre, (do_GET fs dir p sv dt).headers
        = pre ++ [(coopName, coopValue), (coepName, coepValue)] ∧
      ∀ x ∈ pre, x.1 ≠ coopName ∧ x.1 ≠ coepName := by
  rcases hs : send_head fs dir p with loc | ⟨dp, es⟩ | msg | ⟨pa, c, ct, m⟩
  · simp only [do_GET, hs]
    exact ⟨_, end_headers_eq _, pre_no_iso _
      ["Server".data, "Date".data, "Location".data, "Content-Length".data]
      rfl (by decide) (by decide)⟩
  · simp only [do_GET, hs]
    exact ⟨_, end_headers_eq _, pre_no_iso _
      ["Server".data, "Date".data, "Content-type".data, "Content-Length".data]
      rfl (by decide) (by decide)⟩
  · simp only [do_GET, hs, send_error]
    exact ⟨_, end_headers_eq _, pre_no_iso _
      ["Server".data, "Date".data, "Connection".data, "Content-Type".data,
       "Content-Length".data]
      rfl (by decide) (by decide)⟩
  · simp only [do_GET, hs]
    exact ⟨_, end_headers_eq _, pre_no_iso _
      ["Server".data, "Date".data, "Content-type".data, "Content-Length".data,
       "Last-Modified".data]
      rfl (by decide) (by decide)⟩

/-- Test fixture: a root containing `etc/passwd` *inside* it. -/
def fsWithEtcPasswd : FS :=
  [("/root/etc".data, .dir ["passwd".data]),
   ("/root/etc/passwd".data, .file [7] "M".data)]

/-- Test fixture: the root of the spec's example, holding `sample.parquet`. -/
def fsSample : FS :=
  [("/root/sample.parquet".data, .file [1, 2, 3] "M".data)]

lemma send_head_okFile_within (fs : FS) (d p : Str) (hd : d ≠ []) (hds : endsWithSlash d = false)
    (q : Str) (c : List UInt8) (ct m : Str) (h : send_head fs d p = .okFile q c ct m) :
    withinRoot d q ∧ fsLookup fs q = some (.file c m) := by
  have htp : withinRoot d (translate_path d p) := translate_path_within d p hd hds
  have hidx1 : withinRoot d (osJoin (translate_path d p) "index.html".data) :=
    osJoin_within d _ _ hd hds htp (by decide)
  have hidx2 : withinRoot d (osJoin (translate_path d p) "index.htm".data) :=
    osJoin_within d _ _ hd hds htp (by decide)
  unfold send_head at h
  simp only [] at h
  split at h
  · split at h
    · cases h
    · split at h
      · obtain ⟨hq, hl⟩ := openAndServe_okFile _ _ _ _ _ _ h
        subst hq; exact ⟨hidx1, hl⟩
      · split at h
        · obtain ⟨hq, hl⟩ := openAndServe_okFile _ _ _ _ _ _ h
          subst hq; exact ⟨hidx2, hl⟩
        · split at h <;> cases h
  · obtain ⟨hq, hl⟩ := openAndServe_okFile _ _ _ _ _ _ h
    subst hq; exact ⟨htp, hl⟩

/-- C5 (counterexample): the claim also asserts that a traversal request
"responds with an error status", but when the root itself contains
`etc/passwd`, the request `/../../etc/passwd` is normalised to the in-root
file and answered 200 with its content — no error status is produced. -/
theorem c5_counterexample_traversal_not_error_status :
    (do_GET fsWithEtcPasswd "/root".data "/../../etc/passwd".data "S".data "D".data).status = 200 ∧
    (do_GET fsWithEtcPasswd "/root".data "/../../etc/passwd".data "S".data "D".data).body = [7] ∧
    ¬ 400 ≤ (do_GET fsWithEtcPasswd "/root".data "/../../etc/passwd".data "S".data "D".data).status := by
  decide

/-- C5 (amended): a request path using traversal sequences never yields
file content from outside the served root: the resolved path always lies
within the root (leading `..` components are removed by `normpath` and the
remaining `..` words are dropped), and whenever `send_head` decides to
serve a file, that file's path is within the root and the body is exactly
the filesystem content at that in-root path.  (The original claim's
further assertion that such a request always "yields an error status" is
dropped: the stripped path is resolved inside the root by the ordinary
static-serving rules, which may answer 200, 301 or 404.) -/
theorem c5_amended_traversal_confined_to_root (fs : FS) (d p q : Str) (c : List UInt8)
    (ct m : Str) (hd : d ≠ []) (hds : endsWithSlash d = false)
    (hok : send_head fs d p = .okFile q c ct m) :
    withinRoot d (translate_path d p) ∧ withinRoot d q ∧ fsLookup fs q = some (.file c m) :=
  ⟨translate_path_within d p hd hds,
   (send_head_okFile_within fs d p hd hds q c ct m hok).1,
   (send_head_okFile_within fs d p hd hds q c ct m hok).2⟩

/-- C5 witness: the amended theorem applied to the concrete traversal
request `/../../etc/passwd` against a root that contains `etc/passwd`. -/
theorem c5_amended_traversal_confined_to_root_witness :
    withinRoot "/root".data (translate_path "/root".data "/../../etc/passwd".data) ∧
    withinRoot "/root".data "/root/etc/passwd".data ∧
    fsLookup fsWithEtcPasswd "/root/etc/passwd".data = some (.file [7] "M".data) :=
  c5_amended_traversal_confined_to_root fsWithEtcPasswd "/root".data
    "/../../etc/passwd".data "/root/etc/passwd".data [7]
    "application/octet-stream".data "M".data
    (by decide) (by decide) (by decide)

/-- C6: a request that resolves to an existing regular file under the
served root is answered with status 200, a body exactly equal to the
file's byte content, and both isolation headers with their literal
values. -/
theorem c6_existing_file_served_exactly (fs : FS) (d p sv dt : Str) (c : List UInt8)
    (m : Str) (hfile : fsLookup fs (translate_path d p) = some (.file c m))
    (hns : endsWithSlash (translate_path d p) = false) :
    (do_GET fs d p sv dt).status = 200 ∧ (do_GET fs d p sv dt).body = c ∧
    headerValues (do_GET fs d p sv dt).headers coopName = [coopValue] ∧
    headerValues (do_GET fs d p sv dt).headers coepName = [coepValue] := by
  have hdir : isdir fs (translate_path d p) = false :=
    isdir_false_of_file fs _ c m hns hfile
  have hsh : send_head fs d p
      = .okFile (translate_path d p) c (guess_type (translate_path d p)) m := by
    unfold send_head
    simp only [hdir, Bool.false_eq_true, if_false]
    exact openAndServe_file fs _ c m hns hfile
  refine ⟨by simp [do_GET, hsh], by simp [do_GET, hsh], ?_⟩
  simp only [do_GET, hsh]
  exact both_iso _
    ["Server".data, "Date".data, "Content-type".data, "Content-Length".data,
     "Last-Modified".data]
    rfl (by decide) (by decide)

/-- C6 witness: serving `/sample.parquet` from a root that contains it. -/
theorem c6_existing_file_served_exactly_witness :
    (do_GET fsSample "/root".data "/sample.parquet".data "S".data "D".data).status = 200 ∧
    (do_GET fsSample "/root".data "/sample.parquet".data "S".data "D".data).body = [1, 2, 3] ∧
    headerValues (do_GET fsSample "/root".data "/sample.parquet".data "S".data "D".data).headers
      coopName = [coopValue] ∧
    headerValues (do_GET fsSample "/root".data "/sample.parquet".data "S".data "D".data).headers
      coepName = [coepValue] :=
  c6_existing_file_served_exactly fsSample "/root".data "/sample.parquet".data
    "S".data "D".data [1, 2, 3] "M".data (by decide) (by decide)

/-- C7: a request whose resolved path names nothing in the filesystem is
answered 404 with both isolation headers attached, and the error is
contained in that one response: the request loop answers every request of
any request sequence, 404s included. -/
theorem c7_missing_path_404_with_headers (fs : FS) (d p sv dt : Str)
    (hnone : fsLookup fs (stripTrailingSlashes (translate_path d p)) = none) :
    (do_GET fs d p sv dt).status = 404 ∧
    (headerValues (do_GET fs d p sv dt).headers coopName = [coopValue] ∧
      headerValues (do_GET fs d p sv dt).headers coepName = [coepValue]) ∧
    ∀ reqs : List Str, (serveRequests fs d sv dt reqs).length = reqs.length := by
  have hdir : isdir fs (translate_path d p) = false := by
    simp [isdir, hnone]
  have hsh : send_head fs d p = .notFound "File not found".data := by
    unfold send_head
    simp only [hdir, Bool.false_eq_true, if_false]
    unfold openAndServe
    by_cases he : endsWithSlash (translate_path d p) = true
    · rw [if_pos he]
    · rw [if_neg he]
      rw [stripTrailingSlashes_eq_self _ (by simpa using he)] at hnone
      simp [hnone]
  refine ⟨by simp [do_GET, hsh, send_error], ?_, by simp [serveRequests]⟩
  simp only [do_GET, hsh, send_error]
  exact both_iso _
    ["Server".data, "Date".data, "Connection".data, "Content-Type".data,
     "Content-Length".data]
    rfl (by decide) (by decide)

/-- C7 witness: requesting `/does-not-exist.txt` against the sample root. -/
theorem c7_missing_path_404_with_headers_witness :
    (do_GET fsSample "/root".data "/does-not-exist.txt".data "S".data "D".data).status = 404 ∧
    headerValues (do_GET fsSample "/root".data "/does-not-exist.txt".data "S".data "D".data).headers
      coopName = [coopValue] ∧
    headerValues (do_GET fsSample "/root".data "/does-not-exist.txt".data "S".data "D".data).headers
      coepName = [coepValue] :=
  ⟨(c7_missing_path_404_with_headers fsSample "/root".data "/does-not-exist.txt".data
      "S".data "D".data (by decide)).1,
   (c7_missing_path_404_with_headers fsSample "/root".data "/does-not-exist.txt".data
      "S".data "D".data (by decide)).2.1.1,
   (c7_missing_path_404_with_headers fsSample "/root".data "/does-not-exist.txt".data
      "S".data "D".data (by decide)).2.1.2⟩

/-- C2 (counterexample): the claim says port `0` and `70000` fail at
argument-parsing time before any socket operation.  In fact `type=int`
performs no range check: `--port 0` parses successfully and the server
binds an ephemeral port and starts serving, and `--port 70000` parses
successfully and only fails afterwards, at socket-bind time. -/
theorem c2_counterexample_port_range_not_checked_at_parse :
    runMain ["--port".data, "0".data] (fun _ => false)
      = .serving "127.0.0.1".data 0 ∧
    runMain ["--port".data, "70000".data] (fun _ => false) = .bindError := by
  decide

/-- C2 (amended): only non-numeric `--port` input fails at
argument-parsing time (usage error, exit status 2, before any socket
operation).  Numeric values are not range-checked by the parser: a value
outside 0..65535 (such as 70000) passes parsing and fails at
socket-bind time with a non-zero exit, and 0 passes parsing and the
server starts on an ephemeral port. -/
theorem c2_amended_invalid_port_handling (s : Str) (f : Int → Bool) (n : Int) :
    (pyInt s = none → runMain ["--port".data, s] f = .usageError) ∧
    (pyInt s = some n → validBindPort n = false →
      runMain ["--port".data, s] f = .bindError) ∧
    exitCode .afterUsageError = 2 ∧ exitCode .afterBindError = 1 ∧
    runMain ["--port".data, "0".data] (fun _ => false) = .serving "127.0.0.1".data 0 := by
  refine ⟨?_, ?_, rfl, rfl, by decide⟩
  · intro hnone
    simp [runMain, parseArgv, hnone]
  · intro hsome hrange
    simp [runMain, parseArgv, hsome, defaultArgs, hrange]

/-- C2 witness: `--port abc` is a usage error; `--port 70000` parses and
fails at bind time. -/
theorem c2_amended_invalid_port_handling_witness :
    runMain ["--port".data, "abc".data] (fun _ => false) = .usageError ∧
    runMain ["--port".data, "70000".data] (fun _ => false) = .bindError :=
  ⟨(c2_amended_invalid_port_handling "abc".data (fun _ => false) 0).1 (by decide),
   (c2_amended_invalid_port_handling "70000".data (fun _ => false) 70000).2.1
     (by decide) (by decide)⟩

/-- C4 (counterexample): the script installs no `KeyboardInterrupt`
handler, so an operator interrupt during `serve_forever` propagates as an
uncaught exception and the process exit status is non-zero, not 0. -/
theorem c4_counterexample_interrupt_exit_nonzero :
    exitCode .afterInterrupt ≠ 0 := by decide

/-- C4 (amended): the process never exits 0 from any of its terminal
states: invalid arguments exit 2 (`argparse`), bind failure exits 1
(uncaught `OSError`), and an operator interrupt also exits non-zero
(uncaught `KeyboardInterrupt`) — there is no clean-shutdown path with
exit code 0. -/
theorem c4_amended_exit_codes :
    exitCode .afterUsageError = 2 ∧ exitCode .afterBindError = 1 ∧
    exitCode .afterInterrupt ≠ 0 ∧
    ∀ e : ProcessEnd, exitCode e ≠ 0 := by
  refine ⟨rfl, rfl, by decide, ?_⟩
  intro e; cases e <;> decide

/-- C8: when the requested port is already in use (for instance a second
instance started while the first still holds it), `TCPServer(...)` fails:
startup ends in the bind-error state with exit status 1 (non-zero), and
`TCPServer.__init__` closes the freshly created socket before re-raising,
so no partially-bound listener is left behind. -/
theorem c8_bind_in_use_fails_cleanly (s : Str) (n : Int) (f : Int → Bool)
    (hs : pyInt s = some n) (hv : validBindPort n = true) (hf : f n = true) :
    runMain ["--port".data, s] f = .bindError ∧
    exitCode .afterBindError ≠ 0 ∧
    ∀ st, tcpServerInit true = .error st → st.closed = true ∧ st.bound = false := by
  refine ⟨?_, by decide, ?_⟩
  · simp [runMain, parseArgv, hs, defaultArgs, hv, hf]
  · intro st hst
    simp only [tcpServerInit, if_pos rfl] at hst
    injection hst with h
    subst h
    exact ⟨rfl, rfl⟩

/-- C8 witness: a second instance on the default port 8080 while the
first holds it. -/
theorem c8_bind_in_use_fails_cleanly_witness :
    runMain ["--port".data, "8080".data] (fun _ => true) = .bindError ∧
    exitCode .afterBindError ≠ 0 :=
  ⟨(c8_bind_in_use_fails_cleanly "8080".data 8080 (fun _ => true)
      (by decide) (by decide) (by decide)).1,
   (c8_bind_in_use_fails_cleanly "8080".data 8080 (fun _ => true)
      (by decide) (by decide) (by decide)).2.1⟩

/-- C9: the served root is always the working directory at startup: the
handler's directory argument defaults to `os.getcwd()` and `COEPHandler`
is constructed without one, the argument parser only defines `--port` and
`--bind` (a parse success yields only those two fields), and startup
performs no check of the served directory — whenever the parsed port is
bindable, the server reaches the serving state no matter what the working
directory contains. -/
theorem c9_served_root_is_cwd (cwd : Str) (argv : List Str) (a : ParsedArgs)
    (f : Int → Bool) (hp : parseArgv argv defaultArgs = some a)
    (hv : validBindPort a.port = true) (hf : f a.port = false) :
    coepHandlerDirectory cwd = cwd ∧ runMain argv f = .serving a.bind a.port := by
  refine ⟨rfl, ?_⟩
  simp [runMain, hp, hv, hf]

/-- C9 witness: an empty command line serves the working directory with
the default port and bind address. -/
theorem c9_served_root_is_cwd_witness :
    coepHandlerDirectory "/anywhere".data = "/anywhere".data ∧
    runMain [] (fun _ => false) = .serving "127.0.0.1".data 8080 := by
  have h := c9_served_root_is_cwd "/anywhere".data [] defaultArgs (fun _ => false)
    rfl (by decide) rfl
  exact ⟨h.1, h.2⟩

lemma serveForeverTrace_length (n : Nat) : (serveForeverTrace n).length = 3 * n := by
  induction n with
  | zero => rfl
  | succ k ih =>
    simp only [serveForeverTrace, connectionTrace, List.length_append, ih, List.length_cons,
      List.length_nil]
    omega

lemma handleStart_pos (n : Nat) : ∀ (k i : Nat),
    (serveForeverTrace n).get? k = some (.handleStart i) → k = 3 * i + 1 := by
  induction n with
  | zero => intro k i h; simp [serveForeverTrace] at h
  | succ m ih =>
    intro k i h
    simp only [serveForeverTrace] at h
    by_cases hk : k < (serveForeverTrace m).length
    · rw [List.get?_append hk] at h
      exact ih k i h
    · push_neg at hk
      rw [List.get?_append_right hk] at h
      rw [serveForeverTrace_length] at hk h
      rcases hj : k - 3 * m with _ | _ | _ | j
      · rw [hj] at h; cases h
      · rw [hj] at h
        injection h with h
        injection h with h
        omega
      · rw [hj] at h; cases h
      · rw [hj] at h; cases h

lemma handleEnd_pos (n : Nat) : ∀ (k i : Nat),
    (serveForeverTrace n).get? k = some (.handleEnd i) → k = 3 * i + 2 := by
  induction n with
  | zero => intro k i h; simp [serveForeverTrace] at h
  | succ m ih =>
    intro k i h
    simp only [serveForeverTrace] at h
    by_cases hk : k < (serveForeverTrace m).length
    · rw [List.get?_append hk] at h
      exact ih k i h
    · push_neg at hk
      rw [List.get?_append_right hk] at h
      rw [serveForeverTrace_length] at hk h
      rcases hj : k - 3 * m with _ | _ | _ | j
      · rw [hj] at h; cases h
      · rw [hj] at h; cases h
      · rw [hj] at h
        injection h with h
        injection h with h
        omega
      · rw [hj] at h; cases h

/-- C3 (counterexample): the server class is the synchronous
`socketserver.TCPServer` — `process_request` runs the handler to
completion inside the accept loop — so in the concrete trace of two
inbound connections no handler starts while another is running: the
connections are not handled in parallel. -/
theorem c3_counterexample_no_parallel_handling :
    ¬ concurrentHandling (serveForeverTrace 2) := by
  unfold concurrentHandling
  decide

/-- C3 (amended): the server accepts and handles connections
*sequentially*: in the `serve_forever` trace of any number of
connections, each connection's handler runs to completion before the next
connection is accepted, and no handler ever executes in parallel with
another. -/
theorem c3_amended_connections_handled_sequentially (n : Nat) :
    ¬ concurrentHandling (serveForeverTrace n) := by
  rintro ⟨a, b, c, hab, hbc, hov⟩
  have hga : (serveForeverTrace n).get? a.val = some ((serveForeverTrace n).get a) :=
    List.get?_eq_get a.isLt
  have hgb : (serveForeverTrace n).get? b.val = some ((serveForeverTrace n).get b) :=
    List.get?_eq_get b.isLt
  have hgc : (serveForeverTrace n).get? c.val = some ((serveForeverTrace n).get c) :=
    List.get?_eq_get c.isLt
  cases ha : (serveForeverTrace n).get a <;> rw [ha] at hov hga <;>
    cases hb : (serveForeverTrace n).get b <;> rw [hb] at hov hgb <;>
      cases hc : (serveForeverTrace n).get c <;> rw [hc] at hov hgc <;>
        simp only [overlapB, Bool.false_eq_true] at hov
  next i j k =>
    obtain ⟨hij, hki⟩ := of_decide_eq_true hov
    have h1 := handleStart_pos n a.val i hga
    have h2 := handleStart_pos n b.val j hgb
    have h3 := handleEnd_pos n c.val k hgc
    omega
